import Mathlib

/-!
Shallow embedding of the single-frame capture orchestrator in
src/camara/sacarfoto/sacarfoto.py.

Conventions of the embedding:
- Time is modelled in integer milliseconds.  The Python constants translate
  as 0.05 s -> 50 ms (epsilon), 0.15 s -> 150 ms (stream open poll),
  0.1 s -> 100 ms (frame read poll), 1.5 s -> 1500 ms (read window cap),
  and the default configuration 7 s / 3 s / 4 s -> 7000 / 3000 / 4000 ms.
- Calls other than sleeps are treated as instantaneous; a sleep advances the
  clock by its argument.  The environment (stream backends, file system,
  external transcoder) is passed in explicitly: for each decoding backend it
  says whether the constructor raises, from which offset the handle reports
  open, how frame reads behave, and how the image write behaves; for the
  child process it says how long the process would run, its exit code, its
  error output, and which files it leaves behind.
- The stream URL and the output path are strings that the Python code only
  forwards to the backends; they are absorbed into the environment, so the
  embedded functions do not carry them.
- Exceptions that the Python code catches are turned into ordinary results.
  An exception the code does not catch (a raising frame read, which the
  source wraps in no try block) is surfaced as a distinguished constructor
  that propagates to the top, mirroring an uncaught Python exception.
- The while loops of the source poll with a fixed step, so they are embedded
  with a fuel argument large enough to be unreachable; lemmas below show the
  chosen fuel never runs out.
-/

def epsilonMs : Int := 50

def openPollMs : Int := 150

def readPollMs : Int := 100

def readWindowCapMs : Int := 1500

/-- Source remaining_time (line 86): max(0.0, deadline - time.time()), with
the current clock reading passed explicitly. -/
def remaining_time (deadline now : Int) : Int := max 0 (deadline - now)

/-- Character-list helper: does the list start with the pattern. -/
def chStarts : List Char → List Char → Bool
  | [], _ => true
  | _ :: _, [] => false
  | a :: as, b :: bs => a == b && chStarts as bs

/-- Character-list helper: does the pattern occur somewhere in the list. -/
def chHasSub (pat : List Char) : List Char → Bool
  | [] => pat.isEmpty
  | c :: t => chStarts pat (c :: t) || chHasSub pat t

/-- Embedding of the Python substring test (the expression pat in s). -/
def strHasSub (s pat : String) : Bool := chHasSub pat.toList s.toList

/-- Marker searched for in the transcoder error output (source line 182). -/
def mark401 : String := "401 Unauthorized"

/-- The decoding backends of the stream strategy (source lines 91 to 96):
cv2.CAP_FFMPEG and cv2.CAP_GSTREAMER when the runtime has them, then the
default constructor. -/
inductive BackendId
  | capFFMPEG
  | capGSTREAMER
  | defaultBackend
deriving DecidableEq, Repr

/-- Source lines 91 to 96: the priority list of backends actually tried. -/
def backendsList (hasFF hasGS : Bool) : List BackendId :=
  (if hasFF then [BackendId.capFFMPEG] else [])
    ++ (if hasGS then [BackendId.capGSTREAMER] else [])
    ++ [BackendId.defaultBackend]

/-- Environment behaviour of cap.read() for one backend: a frame becomes
available at a fixed offset from the start of the read loop, or never, or
the call raises (the source has no try block around cap.read, so a raise
escapes the strategy). -/
inductive ReadBeh
  | frameAt (off : Int)
  | noFrame
  | raiseOnRead
deriving DecidableEq, Repr

/-- Environment behaviour of cv2.imwrite: the write completes and the file
is present, or it raises (caught at source lines 143 to 146); a raising
write may or may not leave a file at the output path. -/
inductive WriteBeh
  | writeOk
  | writeRaise (leavesFile : Bool)
deriving DecidableEq, Repr

/-- Environment behaviour of one decoding backend. -/
structure BackendBeh where
  ctorRaises : Bool
  openAt : Option Int
  readBeh : ReadBeh
  writeBeh : WriteBeh
deriving DecidableEq, Repr

/-- Is the handle open at the given offset from construction. -/
def isOpenAt (openAt : Option Int) (off : Int) : Bool :=
  match openAt with
  | none => false
  | some a => decide (a ≤ off)

/-- Fuelled embedding of the open-wait loop (source lines 114 to 121):
while now - start < eff_timeout, test isOpened, else sleep 150 ms.
Returns whether the handle opened and the offset at which the loop ended. -/
def openWaitF (openAt : Option Int) (eff : Int) : Nat → Int → Bool × Int
  | 0, off => (false, off)
  | fuel + 1, off =>
    if off < eff then
      if isOpenAt openAt off then (true, off)
      else openWaitF openAt eff fuel (off + openPollMs)
    else (false, off)

/-- The open-wait loop with enough fuel (each iteration advances the offset
by 150, so eff.toNat + 1 iterations can never be consumed). -/
def openWait (openAt : Option Int) (eff : Int) : Bool × Int :=
  openWaitF openAt eff (eff.toNat + 1) 0

/-- How the read loop of a backend ended. -/
inductive ReadExit
  | gotFrame
  | raisedRead
  | windowOver
deriving DecidableEq, Repr

/-- Fuelled embedding of the frame-read loop (source lines 133 to 147):
while now - read_start < read_window, call cap.read, else sleep 100 ms. -/
def readWaitF (rb : ReadBeh) (rw : Int) : Nat → Int → ReadExit × Int
  | 0, roff => (ReadExit.windowOver, roff)
  | fuel + 1, roff =>
    if roff < rw then
      match rb with
      | ReadBeh.raiseOnRead => (ReadExit.raisedRead, roff)
      | ReadBeh.frameAt a =>
        if a ≤ roff then (ReadExit.gotFrame, roff)
        else readWaitF rb rw fuel (roff + readPollMs)
      | ReadBeh.noFrame => readWaitF rb rw fuel (roff + readPollMs)
    else (ReadExit.windowOver, roff)

/-- The read loop with enough fuel. -/
def readWait (rb : ReadBeh) (rw : Int) : ReadExit × Int :=
  readWaitF rb rw (rw.toNat + 1) 0

/-- Source line 134: read_window = min(1.5, eff_timeout). -/
def readWindowOf (eff : Int) : Int := min readWindowCapMs eff

/-- How one backend attempt ended.  The first three continue with the next
backend; the last three end the whole strategy (succeeded and writeFailed by
a return statement, readRaised by an uncaught exception). -/
inductive AttemptKind
  | ctorRaised
  | openTimeout
  | noFrame
  | succeeded
  | writeFailed
  | readRaised
deriving DecidableEq, Repr

/-- Result of one backend attempt: how it ended, at what absolute time, and
whether a file is present at the output path afterwards. -/
structure AttemptRes where
  kind : AttemptKind
  endTime : Int
  file : Bool
deriving DecidableEq, Repr

/-- One iteration of the backend loop body after the budget checks (source
lines 108 to 150): construct the capture handle (exceptions caught, line
110), poll for open, set the buffer size (exceptions caught, line 130),
poll for a frame, and on a frame write the image (exceptions caught, line
143).  A successful write makes the output file present; a raising write
leaves the file system bit chosen by the environment or the previous file. -/
def attempt (bb : BackendBeh) (eff t : Int) (f : Bool) : AttemptRes :=
  if bb.ctorRaises then ⟨AttemptKind.ctorRaised, t, f⟩
  else
    let ow := openWait bb.openAt eff
    if ow.1 = false then ⟨AttemptKind.openTimeout, t + ow.2, f⟩
    else
      let rr := readWait bb.readBeh (readWindowOf eff)
      match rr.1 with
      | ReadExit.windowOver => ⟨AttemptKind.noFrame, t + ow.2 + rr.2, f⟩
      | ReadExit.raisedRead => ⟨AttemptKind.readRaised, t + ow.2 + rr.2, f⟩
      | ReadExit.gotFrame =>
        match bb.writeBeh with
        | WriteBeh.writeOk => ⟨AttemptKind.succeeded, t + ow.2 + rr.2, true⟩
        | WriteBeh.writeRaise leaves =>
          ⟨AttemptKind.writeFailed, t + ow.2 + rr.2, leaves || f⟩

/-- How the stream strategy ended.  success and writeFailure and budgetOut
and effOut and exhausted are the return statements of the source (lines 142,
146, 101, 106, 152); raised records an uncaught exception escaping. -/
inductive StreamResult
  | success
  | writeFailure
  | budgetOut
  | effOut
  | exhausted
  | raised
deriving DecidableEq, Repr

/-- The Python boolean actually returned by try_opencv_capture. -/
def toBoolS : StreamResult → Bool
  | StreamResult.success => true
  | _ => false

/-- Result of the stream strategy: how it ended, when, the state of the
output path, and how many backends the loop body started processing. -/
structure StreamRun where
  result : StreamResult
  endTime : Int
  fileExists : Bool
  visited : Nat
deriving DecidableEq, Repr

/-- Embedding of the backend loop of try_opencv_capture (source lines 98 to
152).  Per backend: if remaining_time(deadline) <= 0.05 return False (line
100); eff_timeout = min(timeout, remaining_time(deadline)), and if
eff_timeout <= 0.05 return False (line 105); otherwise run the attempt, and
on ctor raise, open timeout or no frame continue with the next backend. -/
def streamGo (benv : BackendId → BackendBeh) (timeout deadline : Int) :
    List BackendId → Int → Bool → StreamRun
  | [], t, f => ⟨StreamResult.exhausted, t, f, 0⟩
  | b :: rest, t, f =>
    if remaining_time deadline t ≤ epsilonMs then ⟨StreamResult.budgetOut, t, f, 1⟩
    else
      let eff := min timeout (remaining_time deadline t)
      if eff ≤ epsilonMs then ⟨StreamResult.effOut, t, f, 1⟩
      else
        let a := attempt (benv b) eff t f
        match a.kind with
        | AttemptKind.succeeded => ⟨StreamResult.success, a.endTime, a.file, 1⟩
        | AttemptKind.writeFailed => ⟨StreamResult.writeFailure, a.endTime, a.file, 1⟩
        | AttemptKind.readRaised => ⟨StreamResult.raised, a.endTime, a.file, 1⟩
        | _ =>
          let r := streamGo benv timeout deadline rest a.endTime a.file
          ⟨r.result, r.endTime, r.fileExists, r.visited + 1⟩

/-- Source try_opencv_capture (lines 89 to 152): build the backend priority
list and run the backend loop from the given start time and file state. -/
def try_opencv_capture (hasFF hasGS : Bool) (benv : BackendId → BackendBeh)
    (timeout deadline t : Int) (f : Bool) : StreamRun :=
  streamGo benv timeout deadline (backendsList hasFF hasGS) t f

/-- Environment behaviour of the external transcoder child process:
whether subprocess.run raises some other exception, how long the process
would take to finish, its exit code, its error output, whether the output
file is present after a completed run, and whether a file is left at the
output path when the process is killed on timeout. -/
structure ProcBeh where
  runRaises : Bool
  duration : Int
  rc : Int
  stderrOut : String
  outExistsAfter : Bool
  leavesFileOnKill : Bool
deriving DecidableEq, Repr

/-- How try_ffmpeg_capture ended; the constructors are its return paths
(source lines 157 to 196). -/
inductive FfmpegResult
  | toolUnavailable
  | noBudget
  | credentialsRejected
  | success
  | transportError (rc : Int) (excerpt : String)
  | processTimeout
  | execError
deriving DecidableEq, Repr

/-- The Python boolean actually returned by try_ffmpeg_capture. -/
def toBoolF : FfmpegResult → Bool
  | FfmpegResult.success => true
  | _ => false

/-- Result of the process fallback: how it ended, when, the state of the
output path, and whether subprocess.run was reached at all. -/
structure FfmpegRun where
  result : FfmpegResult
  endTime : Int
  fileExists : Bool
  spawned : Bool
deriving DecidableEq, Repr

/-- Source try_ffmpeg_capture (lines 154 to 196).  If the binary is not on
the search path return False (line 158); eff_timeout = min(timeout,
remaining_time(deadline)), and if <= 0.05 return False (line 163); then run
the child bounded by eff_timeout.  On completion: a 401 Unauthorized marker
in the error output returns False before any exit-code test (line 182);
else success is returncode 0 and the output file existing (line 185); else
False with the first 200 characters of the error output logged (line 188).
A TimeoutExpired kills the child and returns False (line 190); any other
exception is caught and returns False (line 194).  The child may leave a
file at the output path (it writes there directly); files are never
removed, so the file bit only ever grows. -/
def try_ffmpeg_capture (found : Bool) (pb : ProcBeh)
    (timeout deadline t : Int) (f : Bool) : FfmpegRun :=
  if found = false then ⟨FfmpegResult.toolUnavailable, t, f, false⟩
  else
    let eff := min timeout (remaining_time deadline t)
    if eff ≤ epsilonMs then ⟨FfmpegResult.noBudget, t, f, false⟩
    else if pb.runRaises then ⟨FfmpegResult.execError, t, f, true⟩
    else if pb.duration ≤ eff then
      let fDone := pb.outExistsAfter || f
      if strHasSub pb.stderrOut mark401 then
        ⟨FfmpegResult.credentialsRejected, t + pb.duration, fDone, true⟩
      else if pb.rc == 0 && fDone then
        ⟨FfmpegResult.success, t + pb.duration, fDone, true⟩
      else
        ⟨FfmpegResult.transportError pb.rc (pb.stderrOut.take 200), t + pb.duration, fDone, true⟩
    else ⟨FfmpegResult.processTimeout, t + eff, pb.leavesFileOnKill || f, true⟩

/-- Terminal observable of a run of main: the stdout marker OK or ERROR, or
a crash (an uncaught exception, which prints neither marker). -/
inductive Marker
  | ok
  | error
  | crashed
deriving DecidableEq, Repr

/-- Result of a run of main. -/
structure MainRun where
  marker : Marker
  exitCode : Int
  endTime : Int
  fileExists : Bool
  fallbackInvoked : Bool
  processSpawned : Bool
deriving DecidableEq, Repr

/-- The whole environment a run interacts with. -/
structure Env where
  hasFF : Bool
  hasGS : Bool
  beh : BackendId → BackendBeh
  ffmpegFound : Bool
  procBeh : ProcBeh
  initialFile : Bool

/-- The three timing parameters of the source (lines 82 to 84), in ms. -/
structure Config where
  maxTotal : Int
  opencvTimeout : Int
  ffmpegTimeout : Int
deriving DecidableEq, Repr

/-- Final verdict of main (source lines 224 to 232): OK with exit code 0
when the strategy reported success and the output file exists at the output
path now, otherwise ERROR with exit code 1. -/
def mainVerdict (ok fileExists : Bool) : Marker × Int :=
  if ok && fileExists then (Marker.ok, 0) else (Marker.error, 1)

/-- The record a run of main finishes with (source lines 224 to 232). -/
def finishRun (ok file : Bool) (tEnd : Int) (fb sp : Bool) : MainRun :=
  ⟨(mainVerdict ok file).1, (mainVerdict ok file).2, tEnd, file, fb, sp⟩

/-- Source main from the watchdog on (lines 216 to 232): fix the deadline
once, run the stream strategy, then, if it failed and
remaining_time(deadline) > 0.05, run the process fallback, and finish with
the verdict.  The earlier part of main (configuration lookup, which exits
with ERROR before the watchdog when no URL resolves) is outside the claims.
An exception escaping the stream strategy propagates out of main
uninterrupted, so the run crashes before the fallback decision.  Lean
reserves the name main for executables, hence the name runMain. -/
def runMain (cfg : Config) (env : Env) (t0 : Int) : MainRun :=
  let deadline := t0 + cfg.maxTotal
  let s := try_opencv_capture env.hasFF env.hasGS env.beh cfg.opencvTimeout deadline t0 env.initialFile
  match s.result with
  | StreamResult.raised => ⟨Marker.crashed, 1, s.endTime, s.fileExists, false, false⟩
  | _ =>
    let ok := toBoolS s.result
    if ok = false ∧ epsilonMs < remaining_time deadline s.endTime then
      let fr := try_ffmpeg_capture env.ffmpegFound env.procBeh cfg.ffmpegTimeout deadline s.endTime s.fileExists
      finishRun (toBoolF fr.result) fr.fileExists fr.endTime true fr.spawned
    else
      finishRun ok s.fileExists s.endTime false false

/-!
Supporting lemmas.  The fuel-stability lemmas show the fuel chosen in
openWait and readWait is never exhausted (each loop iteration moves the
offset forward by a positive step, so the loop runs at most eff or rw
iterations, below the provided fuel); the remaining lemmas bound the exit
times of the loops, the attempts, the strategies and the verdict.
-/

theorem openWaitF_stable (oa : Option Int) (eff : Int) :
    ∀ (fuel : Nat) (off : Int), eff ≤ off + openPollMs * fuel →
      openWaitF oa eff (fuel + 1) off = openWaitF oa eff fuel off := by
  intro fuel
  induction fuel with
  | zero =>
    intro off h
    simp only [openPollMs] at h
    simp [openWaitF, show ¬(off < eff) by omega]
  | succ n ih =>
    intro off h
    by_cases hlt : off < eff
    · by_cases ho : isOpenAt oa off = true
      · simp [openWaitF, hlt, ho]
      · simp only [openPollMs] at h
        simp [openWaitF, hlt, ho]
        exact ih (off + openPollMs) (by simp only [openPollMs]; omega)
    · simp [openWaitF, hlt]

theorem openWaitF_snd_le (oa : Option Int) (eff : Int) :
    ∀ (fuel : Nat) (off : Int), off ≤ eff + openPollMs - 1 →
      (openWaitF oa eff fuel off).2 ≤ eff + openPollMs - 1 := by
  intro fuel
  induction fuel with
  | zero => intro off h; simpa [openWaitF] using h
  | succ n ih =>
    intro off h
    by_cases hlt : off < eff
    · by_cases ho : isOpenAt oa off = true
      · simpa [openWaitF, hlt, ho] using h
      · simp [openWaitF, hlt, ho]
        exact ih (off + openPollMs) (by simp only [openPollMs] at *; omega)
    · simpa [openWaitF, hlt] using h

theorem openWaitF_fst_lt (oa : Option Int) (eff : Int) :
    ∀ (fuel : Nat) (off : Int), (openWaitF oa eff fuel off).1 = true →
      (openWaitF oa eff fuel off).2 < eff := by
  intro fuel
  induction fuel with
  | zero => intro off h; simp [openWaitF] at h
  | succ n ih =>
    intro off h
    by_cases hlt : off < eff
    · by_cases ho : isOpenAt oa off = true
      · simp [openWaitF, hlt, ho]
      · simp only [openWaitF, if_pos hlt, ho, if_false] at h ⊢
        exact ih _ h
    · simp [openWaitF, hlt] at h

theorem readWaitF_stable (rb : ReadBeh) (rw : Int) :
    ∀ (fuel : Nat) (roff : Int), rw ≤ roff + readPollMs * fuel →
      readWaitF rb rw (fuel + 1) roff = readWaitF rb rw fuel roff := by
  intro fuel
  induction fuel with
  | zero =>
    intro roff h
    simp only [readPollMs] at h
    simp [readWaitF, show ¬(roff < rw) by omega]
  | succ n ih =>
    intro roff h
    by_cases hlt : roff < rw
    · cases rb with
      | raiseOnRead => simp [readWaitF, hlt]
      | noFrame =>
        simp [readWaitF, hlt]
        exact ih (roff + readPollMs) (by simp only [readPollMs] at *; omega)
      | frameAt a =>
        by_cases hf : a ≤ roff
        · simp [readWaitF, hlt, hf]
        · simp [readWaitF, hlt, hf]
          exact ih (roff + readPollMs) (by simp only [readPollMs] at *; omega)
    · simp [readWaitF, hlt]

theorem readWaitF_snd_le (rb : ReadBeh) (rw : Int) :
    ∀ (fuel : Nat) (roff : Int), roff ≤ rw + readPollMs - 1 →
      (readWaitF rb rw fuel roff).2 ≤ rw + readPollMs - 1 := by
  intro fuel
  induction fuel with
  | zero => intro roff h; simpa [readWaitF] using h
  | succ n ih =>
    intro roff h
    by_cases hlt : roff < rw
    · cases rb with
      | raiseOnRead => simpa [readWaitF, hlt] using h
      | noFrame =>
        simp [readWaitF, hlt]
        exact ih (roff + readPollMs) (by simp only [readPollMs] at *; omega)
      | frameAt a =>
        by_cases hf : a ≤ roff
        · simpa [readWaitF, hlt, hf] using h
        · simp [readWaitF, hlt, hf]
          exact ih (roff + readPollMs) (by simp only [readPollMs] at *; omega)
    · simpa [readWaitF, hlt] using h

theorem readWaitF_exit_lt (rb : ReadBeh) (rw : Int) :
    ∀ (fuel : Nat) (roff : Int), (readWaitF rb rw fuel roff).1 ≠ ReadExit.windowOver →
      (readWaitF rb rw fuel roff).2 < rw := by
  intro fuel
  induction fuel with
  | zero => intro roff h; simp [readWaitF] at h
  | succ n ih =>
    intro roff h
    by_cases hlt : roff < rw
    · cases rb with
      | raiseOnRead => simp [readWaitF, hlt]
      | noFrame =>
        simp only [readWaitF, if_pos hlt] at h ⊢
        exact ih _ h
      | frameAt a =>
        by_cases hf : a ≤ roff
        · simp [readWaitF, hlt, hf]
        · simp only [readWaitF, if_pos hlt, if_neg hf] at h ⊢
          exact ih _ h
    · simp [readWaitF, hlt] at h

theorem readWaitF_raised (rb : ReadBeh) (rw : Int) :
    ∀ (fuel : Nat) (roff : Int), (readWaitF rb rw fuel roff).1 = ReadExit.raisedRead →
      rb = ReadBeh.raiseOnRead := by
  intro fuel
  induction fuel with
  | zero => intro roff h; simp [readWaitF] at h
  | succ n ih =>
    intro roff h
    by_cases hlt : roff < rw
    · cases rb with
      | raiseOnRead => rfl
      | noFrame =>
        simp only [readWaitF, if_pos hlt] at h
        exact ih _ h
      | frameAt a =>
        by_cases hf : a ≤ roff
        · simp [readWaitF, hlt, hf] at h
        · simp only [readWaitF, if_pos hlt, if_neg hf] at h
          exact ih _ h
    · simp [readWaitF, hlt] at h

theorem openWait_snd_le (oa : Option Int) (eff : Int) (he : 0 ≤ eff) :
    (openWait oa eff).2 ≤ eff + openPollMs - 1 :=
  openWaitF_snd_le oa eff _ 0 (by simp only [openPollMs]; omega)

theorem openWait_fst_lt (oa : Option Int) (eff : Int) (h : (openWait oa eff).1 = true) :
    (openWait oa eff).2 < eff :=
  openWaitF_fst_lt oa eff _ 0 h

theorem readWait_snd_le (rb : ReadBeh) (rw : Int) (h : 0 ≤ rw) :
    (readWait rb rw).2 ≤ rw + readPollMs - 1 :=
  readWaitF_snd_le rb rw _ 0 (by simp only [readPollMs]; omega)

theorem readWait_exit_lt (rb : ReadBeh) (rw : Int)
    (h : (readWait rb rw).1 ≠ ReadExit.windowOver) : (readWait rb rw).2 < rw :=
  readWaitF_exit_lt rb rw _ 0 h

theorem readWait_raised (rb : ReadBeh) (rw : Int)
    (h : (readWait rb rw).1 = ReadExit.raisedRead) : rb = ReadBeh.raiseOnRead :=
  readWaitF_raised rb rw _ 0 h

theorem attempt_endTime_le (bb : BackendBeh) (eff t : Int) (f : Bool) (he : 0 ≤ eff) :
    (attempt bb eff t f).endTime ≤ t + eff + (readWindowCapMs + readPollMs - 2) := by
  by_cases hc : bb.ctorRaises = true
  · simp [attempt, hc, readWindowCapMs, readPollMs]
    omega
  · rcases how : openWait bb.openAt eff with ⟨op, o⟩
    have hsnd := openWait_snd_le bb.openAt eff he
    rw [how] at hsnd
    simp only at hsnd
    cases op with
    | false =>
      simp [attempt, hc, how]
      simp only [openPollMs, readWindowCapMs, readPollMs] at hsnd ⊢
      omega
    | true =>
      have hlt : o < eff := by
        have h2 := openWait_fst_lt bb.openAt eff (by rw [how])
        rw [how] at h2
        simpa using h2
      rcases hrr : readWait bb.readBeh (readWindowOf eff) with ⟨re, ro⟩
      have hrw0 : (0:Int) ≤ readWindowOf eff := by
        simp only [readWindowOf, readWindowCapMs]
        omega
      have hro := readWait_snd_le bb.readBeh (readWindowOf eff) hrw0
      rw [hrr] at hro
      simp only at hro
      have hrwle : readWindowOf eff ≤ readWindowCapMs := by
        simp only [readWindowOf, readWindowCapMs]
        omega
      cases re with
      | windowOver =>
        simp [attempt, hc, how, hrr]
        simp only [readWindowCapMs, readPollMs] at *
        omega
      | raisedRead =>
        simp [attempt, hc, how, hrr]
        simp only [readWindowCapMs, readPollMs] at *
        omega
      | gotFrame =>
        cases hw : bb.writeBeh with
        | writeOk =>
          simp [attempt, hc, how, hrr, hw]
          simp only [readWindowCapMs, readPollMs] at *
          omega
        | writeRaise leaves =>
          simp [attempt, hc, how, hrr, hw]
          simp only [readWindowCapMs, readPollMs] at *
          omega

theorem attempt_succeeded_file (bb : BackendBeh) (eff t : Int) (f : Bool)
    (h : (attempt bb eff t f).kind = AttemptKind.succeeded) :
    (attempt bb eff t f).file = true := by
  by_cases hc : bb.ctorRaises = true
  · simp [attempt, hc] at h
  · rcases how : openWait bb.openAt eff with ⟨op, o⟩
    cases op with
    | false => simp [attempt, hc, how] at h
    | true =>
      rcases hrr : readWait bb.readBeh (readWindowOf eff) with ⟨re, ro⟩
      cases re with
      | windowOver => simp [attempt, hc, how, hrr] at h
      | raisedRead => simp [attempt, hc, how, hrr] at h
      | gotFrame =>
        cases hw : bb.writeBeh with
        | writeOk => simp [attempt, hc, how, hrr, hw]
        | writeRaise leaves => simp [attempt, hc, how, hrr, hw] at h

theorem attempt_readRaised (bb : BackendBeh) (eff t : Int) (f : Bool)
    (h : (attempt bb eff t f).kind = AttemptKind.readRaised) :
    bb.readBeh = ReadBeh.raiseOnRead := by
  by_cases hc : bb.ctorRaises = true
  · simp [attempt, hc] at h
  · rcases how : openWait bb.openAt eff with ⟨op, o⟩
    cases op with
    | false => simp [attempt, hc, how] at h
    | true =>
      rcases hrr : readWait bb.readBeh (readWindowOf eff) with ⟨re, ro⟩
      cases re with
      | windowOver => simp [attempt, hc, how, hrr] at h
      | raisedRead =>
        apply readWait_raised bb.readBeh (readWindowOf eff)
        rw [hrr]
      | gotFrame =>
        cases hw : bb.writeBeh with
        | writeOk => simp [attempt, hc, how, hrr, hw] at h
        | writeRaise leaves => simp [attempt, hc, how, hrr, hw] at h

theorem attempt_writeRaise_kind (bb : BackendBeh) (eff t : Int) (f : Bool) (leaves : Bool)
    (hc : bb.ctorRaises = false)
    (hop : (openWait bb.openAt eff).1 = true)
    (hrd : (readWait bb.readBeh (readWindowOf eff)).1 = ReadExit.gotFrame)
    (hw : bb.writeBeh = WriteBeh.writeRaise leaves) :
    (attempt bb eff t f).kind = AttemptKind.writeFailed := by
  rcases how : openWait bb.openAt eff with ⟨op, o⟩
  rw [how] at hop
  simp only at hop
  subst hop
  rcases hrr : readWait bb.readBeh (readWindowOf eff) with ⟨re, ro⟩
  rw [hrr] at hrd
  simp only at hrd
  subst hrd
  simp [attempt, hc, how, hrr, hw]

theorem streamGo_endTime_le (benv : BackendId → BackendBeh) (tmo dl : Int) :
    ∀ (bs : List BackendId) (t : Int) (f : Bool),
      t ≤ dl + (readWindowCapMs + readPollMs - 2) →
      (streamGo benv tmo dl bs t f).endTime ≤ dl + (readWindowCapMs + readPollMs - 2) := by
  intro bs
  induction bs with
  | nil =>
    intro t f ht
    simpa [streamGo] using ht
  | cons b rest ih =>
    intro t f ht
    by_cases h1 : remaining_time dl t ≤ epsilonMs
    · simpa [streamGo, h1] using ht
    · by_cases h2 : min tmo (remaining_time dl t) ≤ epsilonMs
      · simpa [streamGo, h1, h2] using ht
      · have heff0 : (0:Int) ≤ min tmo (remaining_time dl t) := by
          simp only [epsilonMs] at h2
          omega
        have hremle : t + min tmo (remaining_time dl t) ≤ dl := by
          simp only [remaining_time, epsilonMs] at h1 ⊢
          omega
        have ha := attempt_endTime_le (benv b) (min tmo (remaining_time dl t)) t f heff0
        have hanext : (attempt (benv b) (min tmo (remaining_time dl t)) t f).endTime ≤
            dl + (readWindowCapMs + readPollMs - 2) := by
          simp only [readWindowCapMs, readPollMs] at ha ⊢
          omega
        have hcont := ih (attempt (benv b) (min tmo (remaining_time dl t)) t f).endTime
          (attempt (benv b) (min tmo (remaining_time dl t)) t f).file hanext
        cases hk : (attempt (benv b) (min tmo (remaining_time dl t)) t f).kind with
        | succeeded => simpa [streamGo, h1, h2, hk] using hanext
        | writeFailed => simpa [streamGo, h1, h2, hk] using hanext
        | readRaised => simpa [streamGo, h1, h2, hk] using hanext
        | ctorRaised => simpa [streamGo, h1, h2, hk] using hcont
        | openTimeout => simpa [streamGo, h1, h2, hk] using hcont
        | noFrame => simpa [streamGo, h1, h2, hk] using hcont

theorem ffmpeg_endTime_le (found : Bool) (pb : ProcBeh) (tmo dl t : Int) (f : Bool)
    (ht : t ≤ dl) :
    (try_ffmpeg_capture found pb tmo dl t f).endTime ≤ dl := by
  unfold try_ffmpeg_capture
  by_cases hf : found = false
  · simpa [hf] using ht
  · by_cases h2 : min tmo (remaining_time dl t) ≤ epsilonMs
    · simpa [hf, h2] using ht
    · by_cases h3 : pb.runRaises = true
      · simpa [hf, h2, h3] using ht
      · by_cases h4 : pb.duration ≤ min tmo (remaining_time dl t)
        · have hdur : t + pb.duration ≤ dl := by
            have h2c := h2
            have h4c := h4
            simp only [remaining_time, epsilonMs] at h2c h4c
            omega
          by_cases h5 : strHasSub pb.stderrOut mark401 = true
          · simpa [hf, h2, h3, h4, h5] using hdur
          · by_cases h6 : (pb.rc == 0 && (pb.outExistsAfter || f)) = true
            · simpa [hf, h2, h3, h4, h5, h6] using hdur
            · simpa [hf, h2, h3, h4, h5, h6] using hdur
        · have hto : t + min tmo (remaining_time dl t) ≤ dl := by
            have h2c := h2
            simp only [remaining_time, epsilonMs] at h2c ⊢
            omega
          simpa [hf, h2, h3, h4] using hto

theorem mainVerdict_ok_iff (a b : Bool) :
    (mainVerdict a b).1 = Marker.ok ↔ (a = true ∧ b = true) := by
  cases a <;> cases b <;> simp [mainVerdict]

theorem mainVerdict_missing (a : Bool) : mainVerdict a false = (Marker.error, 1) := by
  cases a <;> rfl

theorem streamGo_success_file (benv : BackendId → BackendBeh) (tmo dl : Int) :
    ∀ (bs : List BackendId) (t : Int) (f : Bool),
      (streamGo benv tmo dl bs t f).result = StreamResult.success →
      (streamGo benv tmo dl bs t f).fileExists = true := by
  intro bs
  induction bs with
  | nil =>
    intro t f h
    simp [streamGo] at h
  | cons b rest ih =>
    intro t f h
    by_cases h1 : remaining_time dl t ≤ epsilonMs
    · simp [streamGo, h1] at h
    · by_cases h2 : min tmo (remaining_time dl t) ≤ epsilonMs
      · simp [streamGo, h1, h2] at h
      · cases hk : (attempt (benv b) (min tmo (remaining_time dl t)) t f).kind with
        | succeeded =>
          simp [streamGo, h1, h2, hk]
          exact attempt_succeeded_file _ _ _ _ hk
        | writeFailed => simp [streamGo, h1, h2, hk] at h
        | readRaised => simp [streamGo, h1, h2, hk] at h
        | ctorRaised =>
          simp [streamGo, h1, h2, hk] at h ⊢
          exact ih _ _ h
        | openTimeout =>
          simp [streamGo, h1, h2, hk] at h ⊢
          exact ih _ _ h
        | noFrame =>
          simp [streamGo, h1, h2, hk] at h ⊢
          exact ih _ _ h

theorem streamGo_raised_mem (benv : BackendId → BackendBeh) (tmo dl : Int) :
    ∀ (bs : List BackendId) (t : Int) (f : Bool),
      (streamGo benv tmo dl bs t f).result = StreamResult.raised →
      ∃ b ∈ bs, (benv b).readBeh = ReadBeh.raiseOnRead := by
  intro bs
  induction bs with
  | nil =>
    intro t f h
    simp [streamGo] at h
  | cons b rest ih =>
    intro t f h
    by_cases h1 : remaining_time dl t ≤ epsilonMs
    · simp [streamGo, h1] at h
    · by_cases h2 : min tmo (remaining_time dl t) ≤ epsilonMs
      · simp [streamGo, h1, h2] at h
      · cases hk : (attempt (benv b) (min tmo (remaining_time dl t)) t f).kind with
        | succeeded => simp [streamGo, h1, h2, hk] at h
        | writeFailed => simp [streamGo, h1, h2, hk] at h
        | readRaised =>
          exact ⟨b, List.mem_cons_self _ _, attempt_readRaised _ _ _ _ hk⟩
        | ctorRaised =>
          simp [streamGo, h1, h2, hk] at h
          obtain ⟨b2, hb2, hr⟩ := ih _ _ h
          exact ⟨b2, List.mem_cons_of_mem _ hb2, hr⟩
        | openTimeout =>
          simp [streamGo, h1, h2, hk] at h
          obtain ⟨b2, hb2, hr⟩ := ih _ _ h
          exact ⟨b2, List.mem_cons_of_mem _ hb2, hr⟩
        | noFrame =>
          simp [streamGo, h1, h2, hk] at h
          obtain ⟨b2, hb2, hr⟩ := ih _ _ h
          exact ⟨b2, List.mem_cons_of_mem _ hb2, hr⟩

theorem streamGo_head_success (benv : BackendId → BackendBeh) (tmo dl : Int)
    (b : BackendId) (rest rest2 : List BackendId) (t : Int) (f : Bool)
    (hk : (attempt (benv b) (min tmo (remaining_time dl t)) t f).kind = AttemptKind.succeeded) :
    streamGo benv tmo dl (b :: rest) t f = streamGo benv tmo dl (b :: rest2) t f := by
  by_cases h1 : remaining_time dl t ≤ epsilonMs
  · simp [streamGo, h1]
  · by_cases h2 : min tmo (remaining_time dl t) ≤ epsilonMs
    · simp [streamGo, h1, h2]
    · simp [streamGo, h1, h2, hk]


theorem finishRun_marker_ok (ok file : Bool) (tEnd : Int) (fb sp : Bool)
    (h : (finishRun ok file tEnd fb sp).marker = Marker.ok) :
    (finishRun ok file tEnd fb sp).fileExists = true ∧
      (finishRun ok file tEnd fb sp).exitCode = 0 := by
  cases ok <;> cases file <;> simp [finishRun, mainVerdict] at h ⊢

theorem finishRun_ne_crashed (ok file : Bool) (tEnd : Int) (fb sp : Bool) :
    (finishRun ok file tEnd fb sp).marker ≠ Marker.crashed := by
  cases ok <;> cases file <;> simp [finishRun, mainVerdict]

/-- C2: when the spawned transcoder completes within the effective timeout
and its error output contains the 401 Unauthorized marker, the attempt is
classified CredentialsRejected and returns failure, whatever the exit code
(including 0) and whether or not the output file exists. -/
theorem ffmpeg_401_overrides_exit_code (found : Bool) (pb : ProcBeh)
    (tmo dl t : Int) (f : Bool)
    (hfound : found = true)
    (heff : epsilonMs < min tmo (remaining_time dl t))
    (hnr : pb.runRaises = false)
    (hdur : pb.duration ≤ min tmo (remaining_time dl t))
    (h401 : strHasSub pb.stderrOut mark401 = true) :
    (try_ffmpeg_capture found pb tmo dl t f).result = FfmpegResult.credentialsRejected ∧
      toBoolF (try_ffmpeg_capture found pb tmo dl t f).result = false := by
  have hne : ¬(min tmo (remaining_time dl t) ≤ epsilonMs) := by omega
  have hnf : ¬(found = false) := by simp [hfound]
  constructor
  · simp [try_ffmpeg_capture, hnf, hne, hnr, hdur, h401]
  · simp [try_ffmpeg_capture, hnf, hne, hnr, hdur, h401, toBoolF]

/-- Witness for ffmpeg_401_overrides_exit_code: exit code 0 and output file
present, yet the classification is CredentialsRejected and failure. -/
theorem ffmpeg_401_overrides_exit_code_witness :
    strHasSub "401 Unauthorized" mark401 = true ∧
    (try_ffmpeg_capture true ⟨false, 100, 0, "401 Unauthorized", true, false⟩
        4000 7000 3000 false).result = FfmpegResult.credentialsRejected :=
  ⟨by decide,
    (ffmpeg_401_overrides_exit_code true ⟨false, 100, 0, "401 Unauthorized", true, false⟩
      4000 7000 3000 false rfl (by decide) rfl (by decide) (by decide)).1⟩

/-- C5: when the transcoder completes within the effective timeout and the
error output has no 401 marker, the attempt succeeds iff the exit code is 0
and the output file exists; every other combination is a TransportError
carrying the first 200 characters of the error output, and fails. -/
theorem ffmpeg_success_iff_rc_and_file (found : Bool) (pb : ProcBeh)
    (tmo dl t : Int) (f : Bool)
    (hfound : found = true)
    (heff : epsilonMs < min tmo (remaining_time dl t))
    (hnr : pb.runRaises = false)
    (hdur : pb.duration ≤ min tmo (remaining_time dl t))
    (h401 : strHasSub pb.stderrOut mark401 = false) :
    ((try_ffmpeg_capture found pb tmo dl t f).result = FfmpegResult.success ↔
      (pb.rc = 0 ∧ (try_ffmpeg_capture found pb tmo dl t f).fileExists = true)) ∧
    (¬(pb.rc = 0 ∧ (try_ffmpeg_capture found pb tmo dl t f).fileExists = true) →
      (try_ffmpeg_capture found pb tmo dl t f).result
          = FfmpegResult.transportError pb.rc (pb.stderrOut.take 200) ∧
        toBoolF (try_ffmpeg_capture found pb tmo dl t f).result = false) := by
  have hne : ¬(min tmo (remaining_time dl t) ≤ epsilonMs) := by omega
  have hnf : ¬(found = false) := by simp [hfound]
  by_cases h6 : (pb.rc == 0 && (pb.outExistsAfter || f)) = true
  · have h6p : pb.rc = 0 ∧ (pb.outExistsAfter || f) = true := by
      simpa [Bool.and_eq_true, beq_iff_eq] using h6
    constructor
    · simp [try_ffmpeg_capture, hnf, hne, hnr, hdur, h401, h6, h6p]
    · intro hcon
      exfalso
      apply hcon
      simp [try_ffmpeg_capture, hnf, hne, hnr, hdur, h401, h6, h6p]
  · have h6p : ¬(pb.rc = 0 ∧ (pb.outExistsAfter || f) = true) := by
      simpa [Bool.and_eq_true, beq_iff_eq] using h6
    constructor
    · simp [try_ffmpeg_capture, hnf, hne, hnr, hdur, h401, h6]
      intro h0
      constructor
      · cases hA : pb.outExistsAfter
        · rfl
        · exact absurd ⟨h0, by simp [hA]⟩ h6p
      · cases hfv : f
        · rfl
        · exact absurd ⟨h0, by simp [hfv]⟩ h6p
    · intro _
      constructor
      · simp [try_ffmpeg_capture, hnf, hne, hnr, hdur, h401, h6]
      · simp [try_ffmpeg_capture, hnf, hne, hnr, hdur, h401, h6, toBoolF]

/-- Witness for ffmpeg_success_iff_rc_and_file: exit code 1 with no 401
marker gives a TransportError carrying the truncated error output. -/
theorem ffmpeg_success_iff_rc_and_file_witness :
    strHasSub "connection refused" mark401 = false ∧
    (try_ffmpeg_capture true ⟨false, 100, 1, "connection refused", false, false⟩
        4000 7000 3000 false).result
      = FfmpegResult.transportError 1 (String.take "connection refused" 200) :=
  ⟨by decide,
    ((ffmpeg_success_iff_rc_and_file true ⟨false, 100, 1, "connection refused", false, false⟩
        4000 7000 3000 false rfl (by decide) rfl (by decide) (by decide)).2
      (by decide)).1⟩

/-- C4 counterexample: with three backends pending, remaining budget well
above epsilon and a configured backend timeout of 40 ms (so the effective
timeout min(40, remaining) is at most epsilon), the strategy does not skip
to the next backend: it returns failure at once from the first backend
(result effOut, one backend visited out of three). -/
theorem stream_eff_timeout_aborts_counterexample :
    (streamGo (fun _ => ⟨false, some 0, ReadBeh.frameAt 0, WriteBeh.writeOk⟩) 40 10000
        [BackendId.capFFMPEG, BackendId.capGSTREAMER, BackendId.defaultBackend] 0 false)
      = ⟨StreamResult.effOut, 0, false, 1⟩ ∧
    epsilonMs < remaining_time 10000 0 ∧
    min 40 (remaining_time 10000 0) ≤ epsilonMs := by
  refine ⟨by decide, by decide, by decide⟩

/-- C4 amended: per backend, if the remaining budget is at most epsilon the
whole strategy aborts immediately; otherwise, if the effective timeout
min(configured, remaining) is at most epsilon, the strategy likewise
returns failure immediately from that backend (it does not skip to the next
backend), which can only happen when the configured timeout itself is at
most epsilon. -/
theorem stream_budget_checks (benv : BackendId → BackendBeh) (tmo dl : Int)
    (b : BackendId) (rest : List BackendId) (t : Int) (f : Bool) :
    (remaining_time dl t ≤ epsilonMs →
      streamGo benv tmo dl (b :: rest) t f = ⟨StreamResult.budgetOut, t, f, 1⟩) ∧
    (epsilonMs < remaining_time dl t → min tmo (remaining_time dl t) ≤ epsilonMs →
      streamGo benv tmo dl (b :: rest) t f = ⟨StreamResult.effOut, t, f, 1⟩ ∧
        tmo ≤ epsilonMs) := by
  constructor
  · intro h1
    simp [streamGo, h1]
  · intro h1 h2
    constructor
    · simp [streamGo, h1, h2]
    · omega

/-- Witness for stream_budget_checks at concrete inputs. -/
theorem stream_budget_checks_witness :
    (remaining_time 7000 6990 ≤ epsilonMs ∧
      streamGo (fun _ => ⟨false, some 0, ReadBeh.frameAt 0, WriteBeh.writeOk⟩) 3000 7000
          [BackendId.defaultBackend] 6990 false = ⟨StreamResult.budgetOut, 6990, false, 1⟩) ∧
    (streamGo (fun _ => ⟨false, some 0, ReadBeh.frameAt 0, WriteBeh.writeOk⟩) 40 7000
          [BackendId.defaultBackend] 0 false = ⟨StreamResult.effOut, 0, false, 1⟩) :=
  ⟨⟨by decide,
      (stream_budget_checks (fun _ => ⟨false, some 0, ReadBeh.frameAt 0, WriteBeh.writeOk⟩)
        3000 7000 BackendId.defaultBackend [] 6990 false).1 (by decide)⟩,
    ((stream_budget_checks (fun _ => ⟨false, some 0, ReadBeh.frameAt 0, WriteBeh.writeOk⟩)
        40 7000 BackendId.defaultBackend [] 0 false).2 (by decide) (by decide)).1⟩

/-- C7: when a backend reaches a decoded frame and persisting it fails
(the write raises), the failure is terminal for the whole strategy: the
result is writeFailure, the returned boolean is false, and no further
backend is visited. -/
theorem stream_write_failure_terminal (benv : BackendId → BackendBeh) (tmo dl : Int)
    (b : BackendId) (rest : List BackendId) (t : Int) (f : Bool) (leaves : Bool)
    (h1 : epsilonMs < remaining_time dl t)
    (h2 : epsilonMs < min tmo (remaining_time dl t))
    (hc : (benv b).ctorRaises = false)
    (hop : (openWait (benv b).openAt (min tmo (remaining_time dl t))).1 = true)
    (hrd : (readWait (benv b).readBeh (readWindowOf (min tmo (remaining_time dl t)))).1
        = ReadExit.gotFrame)
    (hw : (benv b).writeBeh = WriteBeh.writeRaise leaves) :
    (streamGo benv tmo dl (b :: rest) t f).result = StreamResult.writeFailure ∧
      toBoolS (streamGo benv tmo dl (b :: rest) t f).result = false ∧
      (streamGo benv tmo dl (b :: rest) t f).visited = 1 := by
  have h1n : ¬(remaining_time dl t ≤ epsilonMs) := by omega
  have h2n : ¬(min tmo (remaining_time dl t) ≤ epsilonMs) := by omega
  have hk := attempt_writeRaise_kind (benv b) (min tmo (remaining_time dl t)) t f leaves hc hop hrd hw
  refine ⟨?_, ?_, ?_⟩ <;> simp [streamGo, h1n, h2n, hk, toBoolS]

/-- Witness for stream_write_failure_terminal: a raising write on the first
of two backends ends the strategy with writeFailure at once. -/
theorem stream_write_failure_terminal_witness :
    (streamGo (fun _ => ⟨false, some 0, ReadBeh.frameAt 0, WriteBeh.writeRaise false⟩)
        3000 7000 [BackendId.capFFMPEG, BackendId.defaultBackend] 0 false).result
      = StreamResult.writeFailure ∧
    (streamGo (fun _ => ⟨false, some 0, ReadBeh.frameAt 0, WriteBeh.writeRaise false⟩)
        3000 7000 [BackendId.capFFMPEG, BackendId.defaultBackend] 0 false).visited = 1 :=
  ⟨(stream_write_failure_terminal
      (fun _ => ⟨false, some 0, ReadBeh.frameAt 0, WriteBeh.writeRaise false⟩) 3000 7000
      BackendId.capFFMPEG [BackendId.defaultBackend] 0 false false
      (by decide) (by decide) rfl (by decide) (by decide) rfl).1,
    (stream_write_failure_terminal
      (fun _ => ⟨false, some 0, ReadBeh.frameAt 0, WriteBeh.writeRaise false⟩) 3000 7000
      BackendId.capFFMPEG [BackendId.defaultBackend] 0 false false
      (by decide) (by decide) rfl (by decide) (by decide) rfl).2.2⟩

theorem runMain_marker_ok_file (cfg : Config) (env : Env) (t0 : Int) :
    (runMain cfg env t0).marker = Marker.ok →
      (runMain cfg env t0).fileExists = true ∧ (runMain cfg env t0).exitCode = 0 := by
  intro h
  cases hs : (try_opencv_capture env.hasFF env.hasGS env.beh cfg.opencvTimeout
      (t0 + cfg.maxTotal) t0 env.initialFile).result with
  | raised => simp [runMain, hs] at h
  | success =>
    simp [runMain, hs, toBoolS] at h ⊢
    exact finishRun_marker_ok _ _ _ _ _ h
  | writeFailure =>
    by_cases hc : epsilonMs < remaining_time (t0 + cfg.maxTotal)
        (try_opencv_capture env.hasFF env.hasGS env.beh cfg.opencvTimeout
          (t0 + cfg.maxTotal) t0 env.initialFile).endTime
    · simp [runMain, hs, toBoolS, hc] at h ⊢
      exact finishRun_marker_ok _ _ _ _ _ h
    · simp [runMain, hs, toBoolS, hc] at h ⊢
      exact finishRun_marker_ok _ _ _ _ _ h
  | budgetOut =>
    by_cases hc : epsilonMs < remaining_time (t0 + cfg.maxTotal)
        (try_opencv_capture env.hasFF env.hasGS env.beh cfg.opencvTimeout
          (t0 + cfg.maxTotal) t0 env.initialFile).endTime
    · simp [runMain, hs, toBoolS, hc] at h ⊢
      exact finishRun_marker_ok _ _ _ _ _ h
    · simp [runMain, hs, toBoolS, hc] at h ⊢
      exact finishRun_marker_ok _ _ _ _ _ h
  | effOut =>
    by_cases hc : epsilonMs < remaining_time (t0 + cfg.maxTotal)
        (try_opencv_capture env.hasFF env.hasGS env.beh cfg.opencvTimeout
          (t0 + cfg.maxTotal) t0 env.initialFile).endTime
    · simp [runMain, hs, toBoolS, hc] at h ⊢
      exact finishRun_marker_ok _ _ _ _ _ h
    · simp [runMain, hs, toBoolS, hc] at h ⊢
      exact finishRun_marker_ok _ _ _ _ _ h
  | exhausted =>
    by_cases hc : epsilonMs < remaining_time (t0 + cfg.maxTotal)
        (try_opencv_capture env.hasFF env.hasGS env.beh cfg.opencvTimeout
          (t0 + cfg.maxTotal) t0 env.initialFile).endTime
    · simp [runMain, hs, toBoolS, hc] at h ⊢
      exact finishRun_marker_ok _ _ _ _ _ h
    · simp [runMain, hs, toBoolS, hc] at h ⊢
      exact finishRun_marker_ok _ _ _ _ _ h

/-- C10: a run of the entry point prints OK and exits 0 only when the output
file exists at the end of the run; and the verdict of the final re-check
maps a strategy-level success with a missing output file to ERROR and exit
code 1. -/
theorem verdict_requires_file (cfg : Config) (env : Env) (t0 : Int) :
    ((runMain cfg env t0).marker = Marker.ok →
      (runMain cfg env t0).fileExists = true ∧ (runMain cfg env t0).exitCode = 0) ∧
    mainVerdict true false = (Marker.error, 1) :=
  ⟨runMain_marker_ok_file cfg env t0, rfl⟩

/-- Witness for verdict_requires_file: a run whose first backend delivers a
frame at once prints OK, and the file is indeed present. -/
theorem verdict_requires_file_witness :
    (runMain ⟨7000, 3000, 4000⟩
        ⟨false, false, (fun _ => ⟨false, some 0, ReadBeh.frameAt 0, WriteBeh.writeOk⟩),
          true, ⟨false, 100, 0, "", true, false⟩, false⟩ 0).fileExists = true :=
  ((verdict_requires_file ⟨7000, 3000, 4000⟩
      ⟨false, false, (fun _ => ⟨false, some 0, ReadBeh.frameAt 0, WriteBeh.writeOk⟩),
        true, ⟨false, 100, 0, "", true, false⟩, false⟩ 0).1 (by decide)).1

/-- Sequences of readings of the clock the code samples.  The source reads
time.time(), the system wall clock, which the operating system may adjust
backwards or forwards between samples; hence any list of values is a
possible sequence of readings within one run. -/
def remainingAlong (deadline : Int) (readings : List Int) : List Int :=
  readings.map (remaining_time deadline)

/-- A list of integers never increases from one entry to the next. -/
def nonIncreasing : List Int → Bool
  | [] => true
  | [_] => true
  | a :: b :: rest => decide (b ≤ a) && nonIncreasing (b :: rest)

/-- Modelled from the claim, for comparison with the code: the remaining
budget, sampled along the clock readings of a run, never increases (this is
what a strictly monotonic clock source would guarantee). -/
def budgetNeverExtended (deadline : Int) (readings : List Int) : Bool :=
  nonIncreasing (remainingAlong deadline readings)

/-- C9 counterexample: the code computes remaining from the adjustable wall
clock, so a backward clock step between two samples (reading 6000 then
3000 against expiry 7000) makes the remaining budget grow from 1000 to
4000, falsifying the never-extended reading of the claim. -/
theorem remaining_extended_counterexample :
    budgetNeverExtended 7000 [6000, 3000] = false ∧
    remaining_time 7000 6000 = 1000 ∧ remaining_time 7000 3000 = 4000 := by
  refine ⟨by decide, by decide, by decide⟩

/-- C9 amended: remaining is max(0, expiry minus the clock reading), never
negative, and antitone in the clock reading; the expiry itself is fixed
once per run.  The clock is the system wall clock, not a monotonic one. -/
theorem remaining_time_props (d n n2 : Int) :
    remaining_time d n = max 0 (d - n) ∧ 0 ≤ remaining_time d n ∧
      (n ≤ n2 → remaining_time d n2 ≤ remaining_time d n) := by
  refine ⟨rfl, le_max_left _ _, ?_⟩
  intro h
  simp only [remaining_time]
  omega

/-- Witness for remaining_time_props at concrete readings. -/
theorem remaining_time_props_witness :
    (3000 : Int) ≤ 5000 ∧ remaining_time 7000 5000 ≤ remaining_time 7000 3000 :=
  ⟨by decide, (remaining_time_props 7000 3000 5000).2.2 (by decide)⟩

theorem runMain_crashed_raised (cfg : Config) (env : Env) (t0 : Int)
    (h : (runMain cfg env t0).marker = Marker.crashed) :
    (try_opencv_capture env.hasFF env.hasGS env.beh cfg.opencvTimeout
        (t0 + cfg.maxTotal) t0 env.initialFile).result = StreamResult.raised := by
  cases hs : (try_opencv_capture env.hasFF env.hasGS env.beh cfg.opencvTimeout
      (t0 + cfg.maxTotal) t0 env.initialFile).result with
  | raised => rfl
  | success =>
    simp [runMain, hs, toBoolS] at h
    exact absurd h (finishRun_ne_crashed _ _ _ _ _)
  | writeFailure =>
    by_cases hc : epsilonMs < remaining_time (t0 + cfg.maxTotal)
        (try_opencv_capture env.hasFF env.hasGS env.beh cfg.opencvTimeout
          (t0 + cfg.maxTotal) t0 env.initialFile).endTime
    · simp [runMain, hs, toBoolS, hc] at h
      exact absurd h (finishRun_ne_crashed _ _ _ _ _)
    · simp [runMain, hs, toBoolS, hc] at h
      exact absurd h (finishRun_ne_crashed _ _ _ _ _)
  | budgetOut =>
    by_cases hc : epsilonMs < remaining_time (t0 + cfg.maxTotal)
        (try_opencv_capture env.hasFF env.hasGS env.beh cfg.opencvTimeout
          (t0 + cfg.maxTotal) t0 env.initialFile).endTime
    · simp [runMain, hs, toBoolS, hc] at h
      exact absurd h (finishRun_ne_crashed _ _ _ _ _)
    · simp [runMain, hs, toBoolS, hc] at h
      exact absurd h (finishRun_ne_crashed _ _ _ _ _)
  | effOut =>
    by_cases hc : epsilonMs < remaining_time (t0 + cfg.maxTotal)
        (try_opencv_capture env.hasFF env.hasGS env.beh cfg.opencvTimeout
          (t0 + cfg.maxTotal) t0 env.initialFile).endTime
    · simp [runMain, hs, toBoolS, hc] at h
      exact absurd h (finishRun_ne_crashed _ _ _ _ _)
    · simp [runMain, hs, toBoolS, hc] at h
      exact absurd h (finishRun_ne_crashed _ _ _ _ _)
  | exhausted =>
    by_cases hc : epsilonMs < remaining_time (t0 + cfg.maxTotal)
        (try_opencv_capture env.hasFF env.hasGS env.beh cfg.opencvTimeout
          (t0 + cfg.maxTotal) t0 env.initialFile).endTime
    · simp [runMain, hs, toBoolS, hc] at h
      exact absurd h (finishRun_ne_crashed _ _ _ _ _)
    · simp [runMain, hs, toBoolS, hc] at h
      exact absurd h (finishRun_ne_crashed _ _ _ _ _)

/-- C8 counterexample: a backend whose frame read raises makes the stream
strategy end in the uncaught-exception state: the exception is not
converted into a classified failure result, contradicting the claim that
each strategy absorbs every backend-level exception. -/
theorem stream_read_exception_escapes :
    (try_opencv_capture false false
        (fun _ => ⟨false, some 0, ReadBeh.raiseOnRead, WriteBeh.writeOk⟩)
        3000 7000 0 false).result = StreamResult.raised := by decide

/-- C8 amended: the stream strategy absorbs exceptions of the backend
constructor, the buffer configuration and the persistence call, and the
process strategy absorbs all child-process exceptions; only an exception
raised by a backend frame read escapes.  Hence when no backend read
raises, no unhandled fault propagates out of the orchestrator. -/
theorem no_uncaught_fault_without_read_raise (cfg : Config) (env : Env) (t0 : Int)
    (h : ∀ b, (env.beh b).readBeh ≠ ReadBeh.raiseOnRead) :
    (runMain cfg env t0).marker ≠ Marker.crashed := by
  intro hc
  obtain ⟨b, _, hb⟩ := streamGo_raised_mem env.beh cfg.opencvTimeout (t0 + cfg.maxTotal)
    (backendsList env.hasFF env.hasGS) t0 env.initialFile (runMain_crashed_raised cfg env t0 hc)
  exact h b hb

/-- Witness for no_uncaught_fault_without_read_raise: a run in which no
backend read raises never ends in the crashed state. -/
theorem no_uncaught_fault_without_read_raise_witness :
    (runMain ⟨7000, 3000, 4000⟩
        ⟨false, false, (fun _ => ⟨false, none, ReadBeh.noFrame, WriteBeh.writeOk⟩),
          true, ⟨false, 100, 1, "transport closed", false, false⟩, false⟩ 0).marker
      ≠ Marker.crashed :=
  no_uncaught_fault_without_read_raise ⟨7000, 3000, 4000⟩
    ⟨false, false, (fun _ => ⟨false, none, ReadBeh.noFrame, WriteBeh.writeOk⟩),
      true, ⟨false, 100, 1, "transport closed", false, false⟩, false⟩ 0
    (by intro b; cases b <;> decide)

theorem attempt_file_false (bb : BackendBeh) (eff t : Int)
    (hw : bb.writeBeh ≠ WriteBeh.writeRaise true)
    (hk : (attempt bb eff t false).kind ≠ AttemptKind.succeeded) :
    (attempt bb eff t false).file = false := by
  by_cases hc : bb.ctorRaises = true
  · simp [attempt, hc]
  · rcases how : openWait bb.openAt eff with ⟨op, o⟩
    cases op with
    | false => simp [attempt, hc, how]
    | true =>
      rcases hrr : readWait bb.readBeh (readWindowOf eff) with ⟨re, ro⟩
      cases re with
      | windowOver => simp [attempt, hc, how, hrr]
      | raisedRead => simp [attempt, hc, how, hrr]
      | gotFrame =>
        cases hwv : bb.writeBeh with
        | writeOk =>
          exfalso
          apply hk
          simp [attempt, hc, how, hrr, hwv]
        | writeRaise leaves =>
          cases leaves with
          | true => exact absurd hwv hw
          | false => simp [attempt, hc, how, hrr, hwv]

theorem streamGo_fail_no_file (benv : BackendId → BackendBeh) (tmo dl : Int)
    (hw : ∀ b, (benv b).writeBeh ≠ WriteBeh.writeRaise true) :
    ∀ (bs : List BackendId) (t : Int),
      (streamGo benv tmo dl bs t false).result ≠ StreamResult.success →
      (streamGo benv tmo dl bs t false).fileExists = false := by
  intro bs
  induction bs with
  | nil =>
    intro t h
    simp [streamGo]
  | cons b rest ih =>
    intro t h
    by_cases h1 : remaining_time dl t ≤ epsilonMs
    · simp [streamGo, h1]
    · by_cases h2 : min tmo (remaining_time dl t) ≤ epsilonMs
      · simp [streamGo, h1, h2]
      · cases hk : (attempt (benv b) (min tmo (remaining_time dl t)) t false).kind with
        | succeeded =>
          exfalso
          apply h
          simp [streamGo, h1, h2, hk]
        | writeFailed =>
          simp [streamGo, h1, h2, hk]
          exact attempt_file_false _ _ _ (hw b) (by simp [hk])
        | readRaised =>
          simp [streamGo, h1, h2, hk]
          exact attempt_file_false _ _ _ (hw b) (by simp [hk])
        | ctorRaised =>
          have hf := attempt_file_false (benv b) (min tmo (remaining_time dl t)) t
            (hw b) (by simp [hk])
          simp [streamGo, h1, h2, hk, hf] at h ⊢
          exact ih _ h
        | openTimeout =>
          have hf := attempt_file_false (benv b) (min tmo (remaining_time dl t)) t
            (hw b) (by simp [hk])
          simp [streamGo, h1, h2, hk, hf] at h ⊢
          exact ih _ h
        | noFrame =>
          have hf := attempt_file_false (benv b) (min tmo (remaining_time dl t)) t
            (hw b) (by simp [hk])
          simp [streamGo, h1, h2, hk, hf] at h ⊢
          exact ih _ h

/-- C6 counterexample: a failing run can leave a file at the output path.
All backends time out opening, the process fallback is spawned with 4000 ms
of effective budget, the transcoder needs 5000 ms, is killed on timeout and
leaves its partly written output file behind; the run ends with the ERROR
marker while a (truncated) file exists at the output path. -/
theorem failing_run_leaves_file_counterexample :
    (runMain ⟨7000, 3000, 4000⟩
        ⟨false, false, (fun _ => ⟨false, none, ReadBeh.noFrame, WriteBeh.writeOk⟩),
          true, ⟨false, 5000, 0, "", false, true⟩, false⟩ 0).marker = Marker.error ∧
    (runMain ⟨7000, 3000, 4000⟩
        ⟨false, false, (fun _ => ⟨false, none, ReadBeh.noFrame, WriteBeh.writeOk⟩),
          true, ⟨false, 5000, 0, "", false, true⟩, false⟩ 0).fileExists = true :=
  ⟨by decide, by decide⟩

/-- C6 amended: the output file is present whenever the run prints OK; and
the stream strategy on its own leaves no file behind on failure (starting
with no file at the path, if no raising write leaves a partial file, a
non-success stream result implies no file at the path).  A failing run as
a whole, however, may leave a file: the killed external transcoder can
leave a partial output file, a raising persistence call can leave a
truncated file, and a pre-existing file at the path is never removed. -/
theorem file_on_success_and_stream_clean :
    (∀ (cfg : Config) (env : Env) (t0 : Int),
      (runMain cfg env t0).marker = Marker.ok → (runMain cfg env t0).fileExists = true) ∧
    (∀ (benv : BackendId → BackendBeh) (tmo dl : Int) (bs : List BackendId) (t : Int),
      (∀ b, (benv b).writeBeh ≠ WriteBeh.writeRaise true) →
      (streamGo benv tmo dl bs t false).result ≠ StreamResult.success →
      (streamGo benv tmo dl bs t false).fileExists = false) :=
  ⟨fun cfg env t0 h => (runMain_marker_ok_file cfg env t0 h).1,
    fun benv tmo dl bs t hw h => streamGo_fail_no_file benv tmo dl hw bs t h⟩

/-- Witness for file_on_success_and_stream_clean at concrete runs. -/
theorem file_on_success_and_stream_clean_witness :
    (runMain ⟨7000, 3000, 4000⟩
        ⟨false, false, (fun _ => ⟨false, some 0, ReadBeh.frameAt 0, WriteBeh.writeOk⟩),
          true, ⟨false, 100, 0, "", true, false⟩, false⟩ 0).fileExists = true ∧
    (streamGo (fun _ => ⟨false, none, ReadBeh.noFrame, WriteBeh.writeOk⟩) 3000 7000
        [BackendId.defaultBackend] 0 false).fileExists = false :=
  ⟨file_on_success_and_stream_clean.1 ⟨7000, 3000, 4000⟩
      ⟨false, false, (fun _ => ⟨false, some 0, ReadBeh.frameAt 0, WriteBeh.writeOk⟩),
        true, ⟨false, 100, 0, "", true, false⟩, false⟩ 0 (by decide),
    file_on_success_and_stream_clean.2
      (fun _ => ⟨false, none, ReadBeh.noFrame, WriteBeh.writeOk⟩) 3000 7000
      [BackendId.defaultBackend] 0 (by intro b; cases b <;> decide) (by decide)⟩

/-- C3: if the stream strategy returns success, the run prints OK with exit
code 0 and the process fallback is neither invoked nor spawned (and the
backends after the first successful one are never tried); if the stream
strategy returns a failure, the fallback is invoked iff the remaining
budget exceeds epsilon, and with the budget exhausted the run ends with
ERROR and exit code 1 without spawning any child process. -/
theorem orchestrator_gating (cfg : Config) (env : Env) (t0 : Int) :
    ((try_opencv_capture env.hasFF env.hasGS env.beh cfg.opencvTimeout
        (t0 + cfg.maxTotal) t0 env.initialFile).result = StreamResult.success →
      (runMain cfg env t0).marker = Marker.ok ∧ (runMain cfg env t0).exitCode = 0 ∧
        (runMain cfg env t0).fallbackInvoked = false ∧
        (runMain cfg env t0).processSpawned = false) ∧
    ((try_opencv_capture env.hasFF env.hasGS env.beh cfg.opencvTimeout
        (t0 + cfg.maxTotal) t0 env.initialFile).result ≠ StreamResult.success →
      (try_opencv_capture env.hasFF env.hasGS env.beh cfg.opencvTimeout
        (t0 + cfg.maxTotal) t0 env.initialFile).result ≠ StreamResult.raised →
      ((runMain cfg env t0).fallbackInvoked = true ↔
        epsilonMs < remaining_time (t0 + cfg.maxTotal)
          (try_opencv_capture env.hasFF env.hasGS env.beh cfg.opencvTimeout
            (t0 + cfg.maxTotal) t0 env.initialFile).endTime) ∧
      (remaining_time (t0 + cfg.maxTotal)
          (try_opencv_capture env.hasFF env.hasGS env.beh cfg.opencvTimeout
            (t0 + cfg.maxTotal) t0 env.initialFile).endTime ≤ epsilonMs →
        (runMain cfg env t0).marker = Marker.error ∧ (runMain cfg env t0).exitCode = 1 ∧
          (runMain cfg env t0).processSpawned = false)) ∧
    (∀ (benv : BackendId → BackendBeh) (tmo dl : Int) (b : BackendId)
        (rest rest2 : List BackendId) (t : Int) (f : Bool),
      (attempt (benv b) (min tmo (remaining_time dl t)) t f).kind = AttemptKind.succeeded →
      streamGo benv tmo dl (b :: rest) t f = streamGo benv tmo dl (b :: rest2) t f) := by
  refine ⟨?_, ?_, streamGo_head_success⟩
  · intro hs
    have hfile : (try_opencv_capture env.hasFF env.hasGS env.beh cfg.opencvTimeout
        (t0 + cfg.maxTotal) t0 env.initialFile).fileExists = true :=
      streamGo_success_file env.beh cfg.opencvTimeout (t0 + cfg.maxTotal)
        (backendsList env.hasFF env.hasGS) t0 env.initialFile hs
    simp [runMain, hs, toBoolS, finishRun, mainVerdict, hfile]
  · intro hns hnr
    cases hs : (try_opencv_capture env.hasFF env.hasGS env.beh cfg.opencvTimeout
        (t0 + cfg.maxTotal) t0 env.initialFile).result with
    | success => exact absurd hs hns
    | raised => exact absurd hs hnr
    | writeFailure =>
      by_cases hc : epsilonMs < remaining_time (t0 + cfg.maxTotal)
          (try_opencv_capture env.hasFF env.hasGS env.beh cfg.opencvTimeout
            (t0 + cfg.maxTotal) t0 env.initialFile).endTime
      · constructor
        · simp [runMain, hs, toBoolS, hc, finishRun, mainVerdict]
        · intro hle
          omega
      · constructor
        · simp [runMain, hs, toBoolS, hc, finishRun, mainVerdict]
        · intro hle
          simp [runMain, hs, toBoolS, hc, finishRun, mainVerdict]
    | budgetOut =>
      by_cases hc : epsilonMs < remaining_time (t0 + cfg.maxTotal)
          (try_opencv_capture env.hasFF env.hasGS env.beh cfg.opencvTimeout
            (t0 + cfg.maxTotal) t0 env.initialFile).endTime
      · constructor
        · simp [runMain, hs, toBoolS, hc, finishRun, mainVerdict]
        · intro hle
          omega
      · constructor
        · simp [runMain, hs, toBoolS, hc, finishRun, mainVerdict]
        · intro hle
          simp [runMain, hs, toBoolS, hc, finishRun, mainVerdict]
    | effOut =>
      by_cases hc : epsilonMs < remaining_time (t0 + cfg.maxTotal)
          (try_opencv_capture env.hasFF env.hasGS env.beh cfg.opencvTimeout
            (t0 + cfg.maxTotal) t0 env.initialFile).endTime
      · constructor
        · simp [runMain, hs, toBoolS, hc, finishRun, mainVerdict]
        · intro hle
          omega
      · constructor
        · simp [runMain, hs, toBoolS, hc, finishRun, mainVerdict]
        · intro hle
          simp [runMain, hs, toBoolS, hc, finishRun, mainVerdict]
    | exhausted =>
      by_cases hc : epsilonMs < remaining_time (t0 + cfg.maxTotal)
          (try_opencv_capture env.hasFF env.hasGS env.beh cfg.opencvTimeout
            (t0 + cfg.maxTotal) t0 env.initialFile).endTime
      · constructor
        · simp [runMain, hs, toBoolS, hc, finishRun, mainVerdict]
        · intro hle
          omega
      · constructor
        · simp [runMain, hs, toBoolS, hc, finishRun, mainVerdict]
        · intro hle
          simp [runMain, hs, toBoolS, hc, finishRun, mainVerdict]

/-- Witness for orchestrator_gating: a run whose first backend succeeds
prints OK without invoking the fallback, and a run that exhausts its budget
in the stream strategy ends with ERROR without spawning a child process. -/
theorem orchestrator_gating_witness :
    ((runMain ⟨7000, 3000, 4000⟩
        ⟨false, false, (fun _ => ⟨false, some 0, ReadBeh.frameAt 0, WriteBeh.writeOk⟩),
          true, ⟨false, 100, 0, "", true, false⟩, false⟩ 0).marker = Marker.ok ∧
      (runMain ⟨7000, 3000, 4000⟩
        ⟨false, false, (fun _ => ⟨false, some 0, ReadBeh.frameAt 0, WriteBeh.writeOk⟩),
          true, ⟨false, 100, 0, "", true, false⟩, false⟩ 0).fallbackInvoked = false) ∧
    ((runMain ⟨40, 3000, 4000⟩
        ⟨false, false, (fun _ => ⟨false, none, ReadBeh.noFrame, WriteBeh.writeOk⟩),
          true, ⟨false, 100, 0, "", true, false⟩, false⟩ 0).marker = Marker.error ∧
      (runMain ⟨40, 3000, 4000⟩
        ⟨false, false, (fun _ => ⟨false, none, ReadBeh.noFrame, WriteBeh.writeOk⟩),
          true, ⟨false, 100, 0, "", true, false⟩, false⟩ 0).processSpawned = false) :=
  ⟨⟨((orchestrator_gating ⟨7000, 3000, 4000⟩
        ⟨false, false, (fun _ => ⟨false, some 0, ReadBeh.frameAt 0, WriteBeh.writeOk⟩),
          true, ⟨false, 100, 0, "", true, false⟩, false⟩ 0).1 (by decide)).1,
      (((orchestrator_gating ⟨7000, 3000, 4000⟩
        ⟨false, false, (fun _ => ⟨false, some 0, ReadBeh.frameAt 0, WriteBeh.writeOk⟩),
          true, ⟨false, 100, 0, "", true, false⟩, false⟩ 0).1 (by decide)).2.2).1⟩,
    ⟨(((orchestrator_gating ⟨40, 3000, 4000⟩
        ⟨false, false, (fun _ => ⟨false, none, ReadBeh.noFrame, WriteBeh.writeOk⟩),
          true, ⟨false, 100, 0, "", true, false⟩, false⟩ 0).2.1 (by decide) (by decide)).2
        (by decide)).1,
      ((((orchestrator_gating ⟨40, 3000, 4000⟩
        ⟨false, false, (fun _ => ⟨false, none, ReadBeh.noFrame, WriteBeh.writeOk⟩),
          true, ⟨false, 100, 0, "", true, false⟩, false⟩ 0).2.1 (by decide) (by decide)).2
        (by decide)).2).2⟩⟩

/-- C1 counterexample: with a backend whose frame read raises, the run
terminates but reaches neither the OK nor the ERROR terminal result: the
uncaught exception escapes the orchestrator, so the claim that every run
reaches a terminal OK or ERROR result fails. -/
theorem run_without_terminal_marker_counterexample :
    (runMain ⟨7000, 3000, 4000⟩
        ⟨false, false, (fun _ => ⟨false, some 0, ReadBeh.raiseOnRead, WriteBeh.writeOk⟩),
          true, ⟨false, 100, 0, "", true, false⟩, false⟩ 0).marker ≠ Marker.ok ∧
    (runMain ⟨7000, 3000, 4000⟩
        ⟨false, false, (fun _ => ⟨false, some 0, ReadBeh.raiseOnRead, WriteBeh.writeOk⟩),
          true, ⟨false, 100, 0, "", true, false⟩, false⟩ 0).marker ≠ Marker.error :=
  ⟨by decide, by decide⟩

/-- C1 amended: for every nonnegative configured watchdog window and every
behaviour of the backends and the transcoder, the run terminates, and the
total wall-clock time never exceeds the window by more than one in-flight
read window plus one polling interval (1500 ms + 100 ms); the run reaches a
terminal OK or ERROR result except when a backend frame read raises, in
which case it terminates by an escaping exception without either marker. -/
theorem capture_run_bounded (cfg : Config) (env : Env) (t0 : Int)
    (hW : 0 ≤ cfg.maxTotal) :
    (runMain cfg env t0).endTime ≤ t0 + cfg.maxTotal + (readWindowCapMs + readPollMs) := by
  have hs0 : t0 ≤ (t0 + cfg.maxTotal) + (readWindowCapMs + readPollMs - 2) := by
    simp only [readWindowCapMs, readPollMs]
    omega
  have hsb : (try_opencv_capture env.hasFF env.hasGS env.beh cfg.opencvTimeout
      (t0 + cfg.maxTotal) t0 env.initialFile).endTime ≤
      (t0 + cfg.maxTotal) + (readWindowCapMs + readPollMs - 2) :=
    streamGo_endTime_le env.beh cfg.opencvTimeout (t0 + cfg.maxTotal)
      (backendsList env.hasFF env.hasGS) t0 env.initialFile hs0
  cases hs : (try_opencv_capture env.hasFF env.hasGS env.beh cfg.opencvTimeout
      (t0 + cfg.maxTotal) t0 env.initialFile).result with
  | raised =>
    simp [runMain, hs]
    simp only [readWindowCapMs, readPollMs] at hsb ⊢
    omega
  | success =>
    simp [runMain, hs, toBoolS, finishRun]
    simp only [readWindowCapMs, readPollMs] at hsb ⊢
    omega
  | writeFailure =>
    by_cases hc : epsilonMs < remaining_time (t0 + cfg.maxTotal)
        (try_opencv_capture env.hasFF env.hasGS env.beh cfg.opencvTimeout
          (t0 + cfg.maxTotal) t0 env.initialFile).endTime
    · have hlt : (try_opencv_capture env.hasFF env.hasGS env.beh cfg.opencvTimeout
          (t0 + cfg.maxTotal) t0 env.initialFile).endTime ≤ t0 + cfg.maxTotal := by
        have hcc := hc
        simp only [remaining_time, epsilonMs] at hcc
        omega
      have hfb := ffmpeg_endTime_le env.ffmpegFound env.procBeh cfg.ffmpegTimeout
        (t0 + cfg.maxTotal)
        (try_opencv_capture env.hasFF env.hasGS env.beh cfg.opencvTimeout
          (t0 + cfg.maxTotal) t0 env.initialFile).endTime
        (try_opencv_capture env.hasFF env.hasGS env.beh cfg.opencvTimeout
          (t0 + cfg.maxTotal) t0 env.initialFile).fileExists hlt
      simp [runMain, hs, toBoolS, hc, finishRun]
      simp only [readWindowCapMs, readPollMs] at hfb ⊢
      omega
    · simp [runMain, hs, toBoolS, hc, finishRun]
      simp only [readWindowCapMs, readPollMs] at hsb ⊢
      omega
  | budgetOut =>
    by_cases hc : epsilonMs < remaining_time (t0 + cfg.maxTotal)
        (try_opencv_capture env.hasFF env.hasGS env.beh cfg.opencvTimeout
          (t0 + cfg.maxTotal) t0 env.initialFile).endTime
    · have hlt : (try_opencv_capture env.hasFF env.hasGS env.beh cfg.opencvTimeout
          (t0 + cfg.maxTotal) t0 env.initialFile).endTime ≤ t0 + cfg.maxTotal := by
        have hcc := hc
        simp only [remaining_time, epsilonMs] at hcc
        omega
      have hfb := ffmpeg_endTime_le env.ffmpegFound env.procBeh cfg.ffmpegTimeout
        (t0 + cfg.maxTotal)
        (try_opencv_capture env.hasFF env.hasGS env.beh cfg.opencvTimeout
          (t0 + cfg.maxTotal) t0 env.initialFile).endTime
        (try_opencv_capture env.hasFF env.hasGS env.beh cfg.opencvTimeout
          (t0 + cfg.maxTotal) t0 env.initialFile).fileExists hlt
      simp [runMain, hs, toBoolS, hc, finishRun]
      simp only [readWindowCapMs, readPollMs] at hfb ⊢
      omega
    · simp [runMain, hs, toBoolS, hc, finishRun]
      simp only [readWindowCapMs, readPollMs] at hsb ⊢
      omega
  | effOut =>
    by_cases hc : epsilonMs < remaining_time (t0 + cfg.maxTotal)
        (try_opencv_capture env.hasFF env.hasGS env.beh cfg.opencvTimeout
          (t0 + cfg.maxTotal) t0 env.initialFile).endTime
    · have hlt : (try_opencv_capture env.hasFF env.hasGS env.beh cfg.opencvTimeout
          (t0 + cfg.maxTotal) t0 env.initialFile).endTime ≤ t0 + cfg.maxTotal := by
        have hcc := hc
        simp only [remaining_time, epsilonMs] at hcc
        omega
      have hfb := ffmpeg_endTime_le env.ffmpegFound env.procBeh cfg.ffmpegTimeout
        (t0 + cfg.maxTotal)
        (try_opencv_capture env.hasFF env.hasGS env.beh cfg.opencvTimeout
          (t0 + cfg.maxTotal) t0 env.initialFile).endTime
        (try_opencv_capture env.hasFF env.hasGS env.beh cfg.opencvTimeout
          (t0 + cfg.maxTotal) t0 env.initialFile).fileExists hlt
      simp [runMain, hs, toBoolS, hc, finishRun]
      simp only [readWindowCapMs, readPollMs] at hfb ⊢
      omega
    · simp [runMain, hs, toBoolS, hc, finishRun]
      simp only [readWindowCapMs, readPollMs] at hsb ⊢
      omega
  | exhausted =>
    by_cases hc : epsilonMs < remaining_time (t0 + cfg.maxTotal)
        (try_opencv_capture env.hasFF env.hasGS env.beh cfg.opencvTimeout
          (t0 + cfg.maxTotal) t0 env.initialFile).endTime
    · have hlt : (try_opencv_capture env.hasFF env.hasGS env.beh cfg.opencvTimeout
          (t0 + cfg.maxTotal) t0 env.initialFile).endTime ≤ t0 + cfg.maxTotal := by
        have hcc := hc
        simp only [remaining_time, epsilonMs] at hcc
        omega
      have hfb := ffmpeg_endTime_le env.ffmpegFound env.procBeh cfg.ffmpegTimeout
        (t0 + cfg.maxTotal)
        (try_opencv_capture env.hasFF env.hasGS env.beh cfg.opencvTimeout
          (t0 + cfg.maxTotal) t0 env.initialFile).endTime
        (try_opencv_capture env.hasFF env.hasGS env.beh cfg.opencvTimeout
          (t0 + cfg.maxTotal) t0 env.initialFile).fileExists hlt
      simp [runMain, hs, toBoolS, hc, finishRun]
      simp only [readWindowCapMs, readPollMs] at hfb ⊢
      omega
    · simp [runMain, hs, toBoolS, hc, finishRun]
      simp only [readWindowCapMs, readPollMs] at hsb ⊢
      omega

/-- Witness for capture_run_bounded: a concrete run with the default 7000
ms window ends within 7000 + 1600 ms of its start. -/
theorem capture_run_bounded_witness :
    (0:Int) ≤ 7000 ∧
    (runMain ⟨7000, 3000, 4000⟩
        ⟨false, false, (fun _ => ⟨false, none, ReadBeh.noFrame, WriteBeh.writeOk⟩),
          true, ⟨false, 5000, 0, "", false, true⟩, false⟩ 0).endTime
      ≤ 0 + 7000 + (readWindowCapMs + readPollMs) :=
  ⟨by decide,
    capture_run_bounded ⟨7000, 3000, 4000⟩
      ⟨false, false, (fun _ => ⟨false, none, ReadBeh.noFrame, WriteBeh.writeOk⟩),
        true, ⟨false, 5000, 0, "", false, true⟩, false⟩ 0 (by decide)⟩
